import Mathlib

/-!
Verification development for the document ingestion and export pipeline of a
PDF packet catalog service. The service validates uploaded PDF files, writes
the bytes to a blob store under a generated key, inserts a metadata record,
compensates (deletes the blob) when the metadata insert fails after a
successful blob write, classifies documents by filename, and materializes
batch exports while isolating per-item fetch failures.

The external stores (blob store and metadata store) are modelled as explicit
state (`StoreState`) plus an environment (`Env`) that fixes the outcome of
each store interaction (write failure, insert failure, public-locator
resolution, remove failure, fetch results), so every operation of the service
becomes a pure state-passing function.

String operations of the host language (`toLowerCase`, `includes`,
`startsWith`, `endsWith`, `split`) are modelled on the character list of the
string, which coincides with the byte-position based library functions but
keeps every definition kernel-reducible.
-/

/-- The closed document-type tag enumeration. -/
inductive DocumentType where
  | TDS
  | ESR
  | MSDS
  | LEED
  | Installation
  | Warranty
  | Acoustic
  | PartSpec
deriving DecidableEq, Repr

/-- Wire-stable string value of a document-type tag (the TS string union value). -/
def DocumentType.str : DocumentType → String
  | .TDS => "TDS"
  | .ESR => "ESR"
  | .MSDS => "MSDS"
  | .LEED => "LEED"
  | .Installation => "Installation"
  | .Warranty => "Warranty"
  | .Acoustic => "Acoustic"
  | .PartSpec => "PartSpec"

/-- An uploaded file: name, declared media type, declared byte size, and the
byte content. `content = none` models a failure to read the bytes (the
`file.slice(0, 5).arrayBuffer()` call throwing). -/
structure SFile where
  name : String
  ftype : String
  size : Nat
  content : Option (List Nat)
deriving DecidableEq, Repr

/-- Verdict of the validator: `{ valid: boolean; error?: string }`. -/
structure ValidationResult where
  valid : Bool
  error : Option String
deriving DecidableEq, Repr

/-- ASCII interpretation of a byte list, modelling `String.fromCharCode(...bytes)`. -/
def asciiStr (bs : List Nat) : String :=
  String.mk (bs.map Char.ofNat)

/-- Lower-casing, modelling the JS `s.toLowerCase()` on ASCII data. -/
def lowerStr (s : String) : String :=
  String.mk (s.data.map Char.toLower)

/-- Leading-match test on strings, modelling the JS `s.startsWith(pat)`. -/
def startsWithStr (s pat : String) : Bool :=
  pat.data.isPrefixOf s.data

/-- Trailing-match test on strings, modelling the JS regex test for a suffix. -/
def endsWithStr (s pat : String) : Bool :=
  pat.data.isSuffixOf s.data

/-- Substring containment on character lists. -/
def hasSub (pat : List Char) : List Char → Bool
  | [] => pat.isEmpty
  | x :: xs => pat.isPrefixOf (x :: xs) || hasSub pat xs

/-- Substring test, modelling the JS `haystack.includes(needle)`. -/
def includes (s pat : String) : Bool :=
  hasSub pat.data s.data

/-- Embedding of `DocumentService.validatePDF`: declared media type must be
`application/pdf`; declared size must not exceed `50 * 1024 * 1024` and must
not be below `1024`; the ASCII interpretation of the first five content bytes
must start with the signature `%PDF`; a content read failure yields the
generic reject. Checks run in exactly the source order. -/
def validatePDF (file : SFile) : ValidationResult :=
  if file.ftype ≠ "application/pdf" then
    { valid := false, error := some "File must be a PDF document" }
  else if file.size > 50 * 1024 * 1024 then
    { valid := false, error := some "File size exceeds 50MB limit" }
  else if file.size < 1024 then
    { valid := false, error := some "File is too small to be a valid PDF" }
  else
    match file.content with
    | none => { valid := false, error := some "Failed to read file" }
    | some bytes =>
      let signature := asciiStr (bytes.take 5)
      if ¬ startsWithStr signature "%PDF" then
        { valid := false, error := some "File does not appear to be a valid PDF" }
      else
        { valid := true, error := none }

/-- Embedding of `DocumentService.detectDocumentType`: lower-case the filename
and test substring groups in the fixed source order, first match wins,
defaulting to TDS. -/
def detectDocumentType (filename : String) : DocumentType :=
  let lower := lowerStr filename
  if includes lower "tds" || includes lower "technical data" then .TDS
  else if includes lower "esr" || includes lower "evaluation report" then .ESR
  else if includes lower "msds" || includes lower "safety data" then .MSDS
  else if includes lower "leed" then .LEED
  else if includes lower "installation" || includes lower "install" then .Installation
  else if includes lower "warranty" then .Warranty
  else if includes lower "acoustic" || includes lower "esl" then .Acoustic
  else if includes lower "spec" || includes lower "3-part" then .PartSpec
  else .TDS

/-- The fixed type-to-display-name table of `extractDocumentName`. -/
def typeMap : DocumentType → String
  | .TDS => "Technical Data Sheet"
  | .ESR => "Evaluation Report"
  | .MSDS => "Material Safety Data Sheet"
  | .LEED => "LEED Credit Guide"
  | .Installation => "Installation Guide"
  | .Warranty => "Limited Warranty"
  | .Acoustic => "Acoustical Performance"
  | .PartSpec => "3-Part Specifications"

/-- Embedding of `DocumentService.extractDocumentName`: strip a trailing
`.pdf` (case-insensitively), then return the table label, falling back to the
stripped name only when the label is falsy (the JS `typeMap[type] || name`). -/
def extractDocumentName (filename : String) (t : DocumentType) : String :=
  let name := if endsWithStr (lowerStr filename) ".pdf"
    then String.mk (filename.data.take (filename.data.length - 4)) else filename
  let label := typeMap t
  if label = "" then name else label

/-- A persisted document metadata record. The `id` is assigned by the
metadata store at insert time; `url` is the public locator obtained from the
blob store. -/
structure DocRecord where
  id : Nat
  name : String
  description : String
  filename : String
  url : String
  size : Nat
  type : DocumentType
  required : Bool
  products : List String
  product_type : String
deriving DecidableEq, Repr

/-- Joint state of the two external stores: the blob store as an association
of storage keys to byte contents, and the metadata store as the list of
document records (most recently inserted first) together with the next fresh
id it will assign. -/
structure StoreState where
  blobs : List (String × List Nat)
  docs : List DocRecord
  nextId : Nat
deriving DecidableEq, Repr

def emptyState : StoreState := { blobs := [], docs := [], nextId := 0 }

/-- Environment fixing the behaviour of the external collaborators for a run:
the timestamp-and-random component of the storage key, whether each store
interaction fails and with which message, how the blob store resolves public
locators, and the fetch and text-safe encoding used by the batch export. -/
structure Env where
  keyStamp : String
  putFails : Bool
  putErrMsg : String
  publicUrl : String → Option String
  insertFails : Bool
  insertErrMsg : String
  removeFails : Bool
  dbDeleteFails : Bool
  dbDeleteErrMsg : String
  listFails : Bool
  listErrMsg : String
  fetch : String → Option (List Nat)
  encode : List Nat → String

/-- The storage key of an upload: `Date.now()` and the random suffix
(together `Env.keyStamp`) joined with the original filename. -/
def storageKey (env : Env) (file : SFile) : String :=
  env.keyStamp ++ "-" ++ file.name

/-- Error outcomes of the upload orchestrator, tagged by origin: a validation
reject, a blob-store write failure, or a metadata-insert failure. -/
inductive UploadError where
  | invalidInput (reason : String)
  | storageWrite (msg : String)
  | metadata (msg : String)
deriving DecidableEq, Repr

/-- Result of `uploadDocument`: the persisted record, or an error. -/
inductive UploadResult where
  | ok (doc : DocRecord)
  | err (e : UploadError)
deriving DecidableEq, Repr

/-- Embedding of `DocumentService.uploadDocument`: validate, write the blob
under the generated key, resolve the public locator (falling back to the
empty string when the store yields none), classify the filename, build the
metadata record, insert it; on insert failure issue the compensating
best-effort delete of the just-written blob and surface the insert error.
The optional progress observer of the source is a pure no-op callback and is
not part of the state. -/
def uploadDocument (env : Env) (file : SFile) (productType : String)
    (s : StoreState) : UploadResult × StoreState :=
  let v := validatePDF file
  if v.valid = false then
    (.err (.invalidInput (v.error.getD "Invalid PDF file")), s)
  else
    let fileName := storageKey env file
    if env.putFails then
      (.err (.storageWrite env.putErrMsg), s)
    else
      let s1 : StoreState :=
        { s with blobs := (fileName, file.content.getD []) ::
            s.blobs.filter (fun p => p.1 ≠ fileName) }
      let fileUrl := (env.publicUrl fileName).getD ""
      let t := detectDocumentType file.name
      let rec0 : DocRecord :=
        { id := s1.nextId
          name := extractDocumentName file.name t
          description := t.str ++ " Document"
          filename := file.name
          url := fileUrl
          size := file.size
          type := t
          required := false
          products := if productType = "structural-floor"
            then ["3/4-in (20mm)"]
            else ["1/2-in (13mm)", "5/8-in (16mm)"]
          product_type := productType }
      if env.insertFails then
        let s2 := if env.removeFails then s1
          else { s1 with blobs := s1.blobs.filter (fun p => p.1 ≠ fileName) }
        (.err (.metadata env.insertErrMsg), s2)
      else
        (.ok rec0, { s1 with docs := rec0 :: s1.docs, nextId := s1.nextId + 1 })

/-- Embedding of `DocumentService.getDocument`: look the record up by id,
yielding `none` when absent (`maybeSingle` then `data || null`). -/
def getDocument (id : Nat) (s : StoreState) : Option DocRecord :=
  s.docs.find? (fun d => d.id == id)

/-- Outcome of the delete operation: ok, or a thrown error message. -/
inductive DeleteResult where
  | ok
  | error (msg : String)
deriving DecidableEq, Repr

/-- One splitting step on character lists, modelling the JS
`s.split(sep)` for a single-character separator. -/
def splitOnChar (l : List Char) (c : Char) : List (List Char) :=
  match l with
  | [] => [[]]
  | x :: xs =>
    let rest := splitOnChar xs c
    if x == c then [] :: rest
    else
      match rest with
      | [] => [[x]]
      | r :: rs => (x :: r) :: rs

/-- Embedding of `DocumentService.deleteDocument`: fetch the record (throwing
`Document not found` when absent), delete the metadata row, then best-effort
remove the blob whose key is the final `/`-separated segment of the stored
url (`doc.url.split('/').pop()`), skipping the removal when that segment is
falsy; a removal failure is swallowed. -/
def deleteDocument (env : Env) (id : Nat) (s : StoreState) :
    DeleteResult × StoreState :=
  match getDocument id s with
  | none => (.error "Document not found", s)
  | some doc =>
    if env.dbDeleteFails then (.error env.dbDeleteErrMsg, s)
    else
      let s1 : StoreState := { s with docs := s.docs.filter (fun d => d.id ≠ id) }
      let s2 :=
        if doc.url ≠ "" then
          match (splitOnChar doc.url.data '/').getLast? with
          | some fileName =>
            if fileName ≠ [] then
              if env.removeFails then s1
              else { s1 with blobs :=
                s1.blobs.filter (fun p => p.1 ≠ String.mk fileName) }
            else s1
          | none => s1
        else s1
      (.ok, s2)

/-- Outcome of the batch export: the materialized (record, payload) pairs or
the error thrown when listing the documents fails, together with the list of
locators for which a fetch was attempted. -/
structure ExportOutcome where
  result : Except String (List (DocRecord × String))
  fetched : List String
deriving Repr

/-- Embedding of `DocumentService.getAllDocumentsWithData`: list all
documents, and for each one that has a locator, fetch its blob and re-encode
it into the text-safe payload; a failed fetch only omits that document. The
`fetched` component records which locators were fetched. -/
def getAllDocumentsWithData (env : Env) (s : StoreState) : ExportOutcome :=
  if env.listFails then { result := .error env.listErrMsg, fetched := [] }
  else
    { result := .ok (s.docs.filterMap (fun doc =>
        if doc.url ≠ "" then
          (env.fetch doc.url).map (fun bs => (doc, env.encode bs))
        else none))
      fetched := s.docs.filterMap (fun doc =>
        if doc.url ≠ "" then some doc.url else none) }

def exFileOk : SFile :=
  { name := "a.pdf", ftype := "application/pdf", size := 2048,
    content := some [37, 80, 68, 70, 45] }

/-- A baseline environment in which every store interaction succeeds. -/
def envA : Env :=
  { keyStamp := "1700000000000-abc123def"
    putFails := false
    putErrMsg := ""
    publicUrl := fun k => some ("https://blob.example/documents/" ++ k)
    insertFails := false
    insertErrMsg := ""
    removeFails := false
    dbDeleteFails := false
    dbDeleteErrMsg := ""
    listFails := false
    listErrMsg := ""
    fetch := fun _ => some [37, 80]
    encode := fun _ => "JVBE" }

def envNoUrl : Env := { envA with publicUrl := fun _ => none }

def envIns : Env := { envA with insertFails := true, insertErrMsg := "duplicate key value" }

def envInsRemFail : Env := { envIns with removeFails := true }

/-- The classifier precedence table exactly as the spec words it: substring
groups in fixed order, each mapped to its document type. -/
def classifierTable : List (List String × DocumentType) :=
  [ (["tds", "technical data"], .TDS),
    (["esr", "evaluation report"], .ESR),
    (["msds", "safety data"], .MSDS),
    (["leed"], .LEED),
    (["installation", "install"], .Installation),
    (["warranty"], .Warranty),
    (["acoustic", "esl"], .Acoustic),
    (["spec", "3-part"], .PartSpec) ]

/-- Classifier as the spec words it: lower-case the filename, take the first
table group with a matching substring, default TDS when no group matches. -/
def specClassify (filename : String) : DocumentType :=
  let lower := lowerStr filename
  match classifierTable.find? (fun p => p.1.any (fun pat => includes lower pat)) with
  | some p => p.2
  | none => .TDS

/-- The suffix of a character list after the last occurrence of a slash,
scanning left to right and restarting at each slash: the final path segment
of a url, as the spec-side reading of the delete operations key derivation. -/
def afterLastSlash (l : List Char) : List Char :=
  l.foldl (fun acc x => if x == '/' then [] else acc ++ [x]) []

/-- Proof device: prepend `acc` onto the first component of a split. -/
def consHead (acc : List Char) : List (List Char) → List (List Char)
  | [] => [acc]
  | r :: rs => (acc ++ r) :: rs

/-- The record inserted by a successful upload, written out as a function of
the inputs; used to characterize the success branch of `uploadDocument`. -/
def uploadRecord (env : Env) (file : SFile) (pt : String) (s : StoreState) : DocRecord :=
  { id := s.nextId
    name := extractDocumentName file.name (detectDocumentType file.name)
    description := (detectDocumentType file.name).str ++ " Document"
    filename := file.name
    url := (env.publicUrl (storageKey env file)).getD ""
    size := file.size
    type := detectDocumentType file.name
    required := false
    products := if pt = "structural-floor"
      then ["3/4-in (20mm)"]
      else ["1/2-in (13mm)", "5/8-in (16mm)"]
    product_type := pt }

/-- The locator field of a successful upload result, when one exists. -/
def uploadedUrl : UploadResult → Option String
  | .ok d => some d.url
  | .err _ => none

def exFileBadType : SFile := { exFileOk with ftype := "text/plain" }

def exFileSmall : SFile := { exFileOk with size := 100 }

def exFile1024 : SFile := { exFileOk with size := 1024 }

def exFileBadSig : SFile := { exFileOk with content := some [1, 2, 3, 4, 5] }

def exFileNoRead : SFile := { exFileOk with content := none }

def exDoc5 : DocRecord :=
  { id := 5
    name := "Technical Data Sheet"
    description := "TDS Document"
    filename := "a.pdf"
    url := "https://blob.example/documents/key1"
    size := 2048
    type := .TDS
    required := false
    products := ["3/4-in (20mm)"]
    product_type := "structural-floor" }

def exState5 : StoreState :=
  { blobs := [("key1", [37, 80]), ("other", [1])], docs := [exDoc5], nextId := 6 }

def exDocU1 : DocRecord := { exDoc5 with id := 1, url := "https://blob.example/u1" }

def exDocU2 : DocRecord := { exDoc5 with id := 2, url := "https://blob.example/u2" }

def exStateExport : StoreState :=
  { blobs := [], docs := [exDocU1, exDocU2], nextId := 3 }

def envFetchOne : Env :=
  { envA with fetch := fun u => if u = "https://blob.example/u2" then none else some [1] }

/-- The record the baseline environment persists for the sample file. -/
def exUploadedDoc : DocRecord := uploadRecord envA exFileOk "structural-floor" emptyState

/-- A failed validation makes the orchestrator return the validation reason
as an invalid-input error with both stores untouched. -/
lemma upload_invalid_eq (env : Env) (file : SFile) (pt : String) (s : StoreState)
    (h : (validatePDF file).valid = false) :
    uploadDocument env file pt s =
      (.err (.invalidInput ((validatePDF file).error.getD "Invalid PDF file")), s) := by
  unfold uploadDocument
  simp [h]

lemma validatePDF_bad_type (f : SFile) (h : f.ftype ≠ "application/pdf") :
    validatePDF f = { valid := false, error := some "File must be a PDF document" } := by
  unfold validatePDF
  simp [h]

lemma validatePDF_too_large (f : SFile) (hf : f.ftype = "application/pdf")
    (h : f.size > 50 * 1024 * 1024) :
    validatePDF f = { valid := false, error := some "File size exceeds 50MB limit" } := by
  unfold validatePDF
  simp [hf, h]

lemma validatePDF_too_small (f : SFile) (hf : f.ftype = "application/pdf")
    (h : f.size < 1024) :
    validatePDF f =
      { valid := false, error := some "File is too small to be a valid PDF" } := by
  have hle : ¬ f.size > 50 * 1024 * 1024 := by omega
  unfold validatePDF
  simp [hf, h, hle]

/-- Characterization of a successful upload: validation passed, neither the
blob write nor the metadata insert failed, the returned record is
`uploadRecord`, and the post-state holds the new blob and the new record. -/
lemma upload_ok_elim (env : Env) (file : SFile) (pt : String) (s : StoreState)
    (d : DocRecord) (h : (uploadDocument env file pt s).1 = .ok d) :
    (validatePDF file).valid = true ∧ env.putFails = false ∧ env.insertFails = false
    ∧ d = uploadRecord env file pt s
    ∧ (uploadDocument env file pt s).2 =
        { blobs := (storageKey env file, file.content.getD []) ::
            s.blobs.filter (fun p => p.1 ≠ storageKey env file)
          docs := d :: s.docs
          nextId := s.nextId + 1 } := by
  simp only [uploadDocument] at h ⊢
  split at h
  · simp at h
  · rename_i hv
    split at h
    · simp at h
    · rename_i hput
      split at h
      · simp at h
      · rename_i hins
        simp only [UploadResult.ok.injEq] at h
        subst h
        refine ⟨by simpa using hv, by simpa using hput, by simpa using hins, ?_, ?_⟩
        · rfl
        · simp only [if_neg hv, if_neg hput, if_neg hins]

example : validatePDF exFileOk = { valid := true, error := none } := by decide

example : validatePDF { exFileOk with ftype := "text/plain" } =
    { valid := false, error := some "File must be a PDF document" } := by decide

example : detectDocumentType "XYZ-TDS-2023.pdf" = .TDS := by decide

example : detectDocumentType "warranty-doc.pdf" = .Warranty := by decide

example : detectDocumentType "random-file.pdf" = .TDS := by decide

lemma validatePDF_checks_passed (f : SFile) (hf : f.ftype = "application/pdf")
    (h1 : 1024 ≤ f.size) (h2 : f.size ≤ 50 * 1024 * 1024) :
    validatePDF f =
      match f.content with
      | none => { valid := false, error := some "Failed to read file" }
      | some bytes =>
        if ¬ startsWithStr (asciiStr (bytes.take 5)) "%PDF" then
          { valid := false, error := some "File does not appear to be a valid PDF" }
        else { valid := true, error := none } := by
  have h1' : ¬ f.size < 1024 := by omega
  have h2' : ¬ f.size > 50 * 1024 * 1024 := by omega
  unfold validatePDF
  simp [hf, h1', h2']

/-- C9: for every upload input on which validation returns an invalid
verdict, the orchestrator returns an invalid-input error carrying the
validation reason, and both stores are left exactly as before the call. -/
theorem upload_invalid_frame (env : Env) (file : SFile) (pt : String) (s : StoreState)
    (h : (validatePDF file).valid = false) :
    (uploadDocument env file pt s).1 =
      .err (.invalidInput ((validatePDF file).error.getD "Invalid PDF file"))
    ∧ (uploadDocument env file pt s).2.blobs = s.blobs
    ∧ (uploadDocument env file pt s).2.docs = s.docs
    ∧ (uploadDocument env file pt s).2 = s := by
  simp [upload_invalid_eq env file pt s h]

theorem upload_invalid_frame_witness :
    (uploadDocument envA exFileBadType "structural-floor" emptyState).1 =
      .err (.invalidInput ((validatePDF exFileBadType).error.getD "Invalid PDF file"))
    ∧ (uploadDocument envA exFileBadType "structural-floor" emptyState).2.blobs =
        emptyState.blobs
    ∧ (uploadDocument envA exFileBadType "structural-floor" emptyState).2.docs =
        emptyState.docs
    ∧ (uploadDocument envA exFileBadType "structural-floor" emptyState).2 = emptyState :=
  upload_invalid_frame envA exFileBadType "structural-floor" emptyState (by decide)

/-- C2 counterexample: at declared size exactly 1024 bytes, with the PDF
media type and a valid signature, validation succeeds; so the size rules do
not reject every size at or below 1024 as the claim states. -/
theorem validate_size_boundary_cex :
    exFile1024.size = 1024 ∧ validatePDF exFile1024 = { valid := true, error := none } := by
  decide

/-- C2 (amended): validation fails when the declared size is strictly below
1024 bytes or above 50 * 1024 * 1024 bytes (the size rules accept exactly
1024 ≤ s ≤ 50 * 1024 * 1024), with the too-small and size-limit reasons
respectively, and the upload orchestrator performs no store call on such a
failure, returning the validation reason with the state unchanged. -/
theorem validate_size_bounds (f : SFile)
    (h : f.size < 1024 ∨ f.size > 50 * 1024 * 1024) :
    (validatePDF f).valid = false
    ∧ (f.ftype = "application/pdf" → f.size < 1024 →
        validatePDF f =
          { valid := false, error := some "File is too small to be a valid PDF" })
    ∧ (f.ftype = "application/pdf" → f.size > 50 * 1024 * 1024 →
        validatePDF f = { valid := false, error := some "File size exceeds 50MB limit" })
    ∧ ∀ env pt s, uploadDocument env f pt s =
        (.err (.invalidInput ((validatePDF f).error.getD "Invalid PDF file")), s) := by
  have hv : (validatePDF f).valid = false := by
    by_cases hft : f.ftype = "application/pdf"
    · rcases h with h | h
      · simp [validatePDF_too_small f hft h]
      · simp [validatePDF_too_large f hft h]
    · simp [validatePDF_bad_type f hft]
  refine ⟨hv, ?_, ?_, ?_⟩
  · intro hft hlt
    exact validatePDF_too_small f hft hlt
  · intro hft hgt
    exact validatePDF_too_large f hft hgt
  · intro env pt s
    exact upload_invalid_eq env f pt s hv

theorem validate_size_bounds_witness :
    (validatePDF exFileSmall).valid = false
    ∧ uploadDocument envA exFileSmall "structural-floor" emptyState =
        (.err (.invalidInput ((validatePDF exFileSmall).error.getD "Invalid PDF file")),
          emptyState) :=
  ⟨(validate_size_bounds exFileSmall (by decide)).1,
   (validate_size_bounds exFileSmall (by decide)).2.2.2 envA "structural-floor" emptyState⟩

/-- C3 counterexample: with a blob store that yields no public locator, the
upload still persists the record and its url is the empty string, so the
storage locator of a persisted record is not always non-empty. -/
theorem upload_url_empty_cex :
    uploadedUrl (uploadDocument envNoUrl exFileOk "structural-floor" emptyState).1 =
      some "" := by
  decide

/-- C3 (amended): the url of every successfully persisted record equals the
public locator the blob store yields for the storage key, with the empty
string as fallback; it is non-empty exactly when that locator is a non-empty
string, and empty when the store fails to yield one. -/
theorem upload_url_from_locator (env : Env) (file : SFile) (pt : String)
    (s : StoreState) (d : DocRecord) (h : (uploadDocument env file pt s).1 = .ok d) :
    d.url = (env.publicUrl (storageKey env file)).getD "" := by
  have hc := upload_ok_elim env file pt s d h
  rw [hc.2.2.2.1]
  simp [uploadRecord]

theorem upload_url_from_locator_witness :
    exUploadedDoc.url = (envA.publicUrl (storageKey envA exFileOk)).getD "" :=
  upload_url_from_locator envA exFileOk "structural-floor" emptyState exUploadedDoc
    (by decide)

/-- C6 counterexample: deleting an id absent from the metadata store yields
the thrown error `Document not found`, not a distinct non-error outcome. -/
theorem delete_absent_cex :
    deleteDocument envA 42 emptyState = (.error "Document not found", emptyState) := by
  decide

/-- C6 (amended): for every id not present in the metadata store, the delete
operation signals an error with message `Document not found` (the absent
case is surfaced as an error, not as a distinct non-error outcome) and
leaves the state unchanged. -/
theorem delete_absent_is_error (env : Env) (id : Nat) (s : StoreState)
    (h : getDocument id s = none) :
    deleteDocument env id s = (.error "Document not found", s) := by
  unfold deleteDocument
  simp [h]

theorem delete_absent_is_error_witness :
    getDocument 42 emptyState = none
    ∧ deleteDocument envA 42 emptyState = (.error "Document not found", emptyState) :=
  ⟨rfl, delete_absent_is_error envA 42 emptyState rfl⟩

/-- C7: the validation verdict depends only on the first five content bytes
(together with the declared type and size); any content whose first five
bytes do not start with the ASCII signature %PDF fails validation, with the
signature reason once the earlier checks pass, and a content read failure
yields the generic read reject. -/
theorem validate_signature_rules (f : SFile) :
    (∀ bs, f.content = some bs →
      startsWithStr (asciiStr (bs.take 5)) "%PDF" = false → (validatePDF f).valid = false)
    ∧ (f.ftype = "application/pdf" → 1024 ≤ f.size → f.size ≤ 50 * 1024 * 1024 →
        (f.content = none →
          validatePDF f = { valid := false, error := some "Failed to read file" })
        ∧ ∀ bs, f.content = some bs →
            startsWithStr (asciiStr (bs.take 5)) "%PDF" = false →
            validatePDF f =
              { valid := false, error := some "File does not appear to be a valid PDF" })
    ∧ ∀ g : SFile, f.ftype = g.ftype → f.size = g.size →
        f.content.map (fun bs => bs.take 5) = g.content.map (fun bs => bs.take 5) →
        validatePDF f = validatePDF g := by
  refine ⟨?_, ?_, ?_⟩
  · intro bs hbs hsig
    by_cases hft : f.ftype = "application/pdf"
    · by_cases hlt : f.size < 1024
      · simp [validatePDF_too_small f hft hlt]
      · by_cases hgt : f.size > 50 * 1024 * 1024
        · simp [validatePDF_too_large f hft hgt]
        · rw [validatePDF_checks_passed f hft (by omega) (by omega), hbs]
          simp [hsig]
    · simp [validatePDF_bad_type f hft]
  · intro hft h1 h2
    constructor
    · intro hnone
      rw [validatePDF_checks_passed f hft h1 h2, hnone]
    · intro bs hbs hsig
      rw [validatePDF_checks_passed f hft h1 h2, hbs]
      simp [hsig]
  · intro g hft hsz hct
    by_cases hf : f.ftype = "application/pdf"
    · have hg : g.ftype = "application/pdf" := hft ▸ hf
      by_cases hgt : f.size > 50 * 1024 * 1024
      · rw [validatePDF_too_large f hf hgt, validatePDF_too_large g hg (hsz ▸ hgt)]
      · by_cases hlt : f.size < 1024
        · rw [validatePDF_too_small f hf hlt, validatePDF_too_small g hg (hsz ▸ hlt)]
        · rw [validatePDF_checks_passed f hf (by omega) (by omega),
            validatePDF_checks_passed g hg (by omega) (by omega)]
          cases hcf : f.content with
          | none =>
            rw [hcf] at hct
            cases hcg : g.content with
            | none => rfl
            | some cs => rw [hcg] at hct; simp at hct
          | some bs =>
            rw [hcf] at hct
            cases hcg : g.content with
            | none => rw [hcg] at hct; simp at hct
            | some cs =>
              rw [hcg] at hct
              simp only [Option.map_some', Option.some.injEq] at hct
              dsimp only
              rw [hct]
    · have hg : g.ftype ≠ "application/pdf" := hft ▸ hf
      rw [validatePDF_bad_type f hf, validatePDF_bad_type g hg]

theorem validate_signature_rules_witness :
    (validatePDF exFileBadSig).valid = false
    ∧ validatePDF exFileNoRead = { valid := false, error := some "Failed to read file" } :=
  ⟨(validate_signature_rules exFileBadSig).1 [1, 2, 3, 4, 5] rfl (by decide),
   ((validate_signature_rules exFileNoRead).2.1 rfl (by decide) (by decide)).1 rfl⟩

/-- C8: retrieving a successfully uploaded document by the id of the
persisted record returns that record, and its filename, size, and
document-type fields are identical to those of the uploaded input. -/
theorem upload_get_roundtrip (env : Env) (file : SFile) (pt : String)
    (s : StoreState) (d : DocRecord) (h : (uploadDocument env file pt s).1 = .ok d) :
    getDocument d.id (uploadDocument env file pt s).2 = some d
    ∧ d.filename = file.name
    ∧ d.size = file.size
    ∧ d.type = detectDocumentType file.name := by
  obtain ⟨hv, hput, hins, hd, hs⟩ := upload_ok_elim env file pt s d h
  refine ⟨?_, ?_, ?_, ?_⟩
  · rw [hs]
    simp [getDocument]
  · rw [hd]
    simp [uploadRecord]
  · rw [hd]
    simp [uploadRecord]
  · rw [hd]
    simp [uploadRecord]

theorem upload_get_roundtrip_witness :
    getDocument exUploadedDoc.id
        (uploadDocument envA exFileOk "structural-floor" emptyState).2 =
      some exUploadedDoc
    ∧ exUploadedDoc.filename = exFileOk.name
    ∧ exUploadedDoc.size = exFileOk.size
    ∧ exUploadedDoc.type = detectDocumentType exFileOk.name :=
  upload_get_roundtrip envA exFileOk "structural-floor" emptyState exUploadedDoc
    (by decide)

/-- C1: when the blob write succeeds and the metadata insert fails, the
orchestrator surfaces the original metadata-insert error regardless of the
outcome of the compensating delete, and when that delete succeeds the blob
written under the storage key of this upload is absent from the blob store. -/
theorem upload_rollback_on_insert_failure (env : Env) (file : SFile) (pt : String)
    (s : StoreState) (hv : (validatePDF file).valid = true)
    (hput : env.putFails = false) (hins : env.insertFails = true) :
    (uploadDocument env file pt s).1 = .err (.metadata env.insertErrMsg)
    ∧ (env.removeFails = false →
        ∀ p ∈ (uploadDocument env file pt s).2.blobs, p.1 ≠ storageKey env file) := by
  constructor
  · simp [uploadDocument, hv, hput, hins]
  · intro hrem p hp
    simp only [uploadDocument, hv, hput, hins, hrem] at hp
    simp only [Bool.true_eq_false, if_false, Bool.false_eq_true, if_true] at hp
    simp [List.mem_filter] at hp
    exact hp.2

theorem upload_rollback_witness :
    ((uploadDocument envIns exFileOk "structural-floor" emptyState).1 =
        .err (.metadata envIns.insertErrMsg)
      ∧ (envIns.removeFails = false →
          ∀ p ∈ (uploadDocument envIns exFileOk "structural-floor" emptyState).2.blobs,
            p.1 ≠ storageKey envIns exFileOk))
    ∧ (uploadDocument envInsRemFail exFileOk "structural-floor" emptyState).1 =
        .err (.metadata envInsRemFail.insertErrMsg) :=
  ⟨upload_rollback_on_insert_failure envIns exFileOk "structural-floor" emptyState
      (by decide) rfl rfl,
   (upload_rollback_on_insert_failure envInsRemFail exFileOk "structural-floor"
      emptyState (by decide) rfl rfl).1⟩

/-- C5: for every filename the classifier lower-cases it and returns the
document type of the first matching substring group in the fixed precedence
order of `classifierTable` (tds, esr, msds, leed, installation, warranty,
acoustic, spec), and TDS when no group matches. -/
theorem detect_matches_table (filename : String) :
    detectDocumentType filename = specClassify filename := by
  by_cases h1 : (includes (lowerStr filename) "tds"
      || includes (lowerStr filename) "technical data") = true
  · simp [detectDocumentType, specClassify, classifierTable, List.find?, h1]
  · by_cases h2 : (includes (lowerStr filename) "esr"
        || includes (lowerStr filename) "evaluation report") = true
    · simp [detectDocumentType, specClassify, classifierTable, List.find?, h1, h2]
    · by_cases h3 : (includes (lowerStr filename) "msds"
          || includes (lowerStr filename) "safety data") = true
      · simp [detectDocumentType, specClassify, classifierTable, List.find?, h1, h2, h3]
      · by_cases h4 : includes (lowerStr filename) "leed" = true
        · simp [detectDocumentType, specClassify, classifierTable, List.find?,
            h1, h2, h3, h4]
        · by_cases h5 : (includes (lowerStr filename) "installation"
              || includes (lowerStr filename) "install") = true
          · simp [detectDocumentType, specClassify, classifierTable, List.find?,
              h1, h2, h3, h4, h5]
          · by_cases h6 : includes (lowerStr filename) "warranty" = true
            · simp [detectDocumentType, specClassify, classifierTable, List.find?,
                h1, h2, h3, h4, h5, h6]
            · by_cases h7 : (includes (lowerStr filename) "acoustic"
                  || includes (lowerStr filename) "esl") = true
              · simp [detectDocumentType, specClassify, classifierTable, List.find?,
                  h1, h2, h3, h4, h5, h6, h7]
              · by_cases h8 : (includes (lowerStr filename) "spec"
                    || includes (lowerStr filename) "3-part") = true
                · simp [detectDocumentType, specClassify, classifierTable, List.find?,
                    h1, h2, h3, h4, h5, h6, h7, h8]
                · simp [detectDocumentType, specClassify, classifierTable, List.find?,
                    h1, h2, h3, h4, h5, h6, h7, h8]

lemma splitOnChar_ne_nil (xs : List Char) (c : Char) : splitOnChar xs c ≠ [] := by
  cases xs with
  | nil => simp [splitOnChar]
  | cons x xs =>
    simp only [splitOnChar]
    split
    · simp
    · split <;> simp

lemma splitOnChar_cons_exists (xs : List Char) (c : Char) :
    ∃ r rs, splitOnChar xs c = r :: rs := by
  cases h : splitOnChar xs c with
  | nil => exact absurd h (splitOnChar_ne_nil xs c)
  | cons r rs => exact ⟨r, rs, rfl⟩

lemma splitOnChar_getLast_aux (c : Char) (xs : List Char) (acc : List Char) :
    (consHead acc (splitOnChar xs c)).getLast? =
      some (xs.foldl (fun a x => if x == c then [] else a ++ [x]) acc) := by
  induction xs generalizing acc with
  | nil => simp [splitOnChar, consHead]
  | cons x xs ih =>
    obtain ⟨r, rs, hr⟩ := splitOnChar_cons_exists xs c
    simp only [splitOnChar, List.foldl_cons]
    by_cases hx : (x == c) = true
    · simp only [hx, if_true, hr]
      simp only [consHead, List.append_nil]
      rw [List.getLast?_cons_cons]
      have h0 := ih []
      rw [hr] at h0
      simpa [consHead] using h0
    · simp only [hx, if_false, hr]
      simp only [consHead]
      have h0 := ih (acc ++ [x])
      rw [hr] at h0
      simp only [consHead] at h0
      simpa [List.append_assoc] using h0

lemma splitOnChar_getLast (l : List Char) (c : Char) :
    (splitOnChar l c).getLast? =
      some (l.foldl (fun a x => if x == c then [] else a ++ [x]) []) := by
  have h := splitOnChar_getLast_aux c l []
  obtain ⟨r, rs, hr⟩ := splitOnChar_cons_exists l c
  rw [hr] at h ⊢
  simpa [consHead] using h

/-- C10: for a stored document with a non-empty url, delete derives the key
for the best-effort blob removal as the final path segment of the url (the
suffix after its last slash, `afterLastSlash`); the metadata row is removed,
and the blob entry under exactly that derived key is removed when the
segment is non-empty and the removal succeeds, while an empty derived
segment leaves the blob store untouched. -/
theorem delete_uses_url_tail (env : Env) (id : Nat) (s : StoreState) (doc : DocRecord)
    (hdoc : getDocument id s = some doc) (hurl : doc.url ≠ "")
    (hdb : env.dbDeleteFails = false) :
    deleteDocument env id s =
      (.ok, { s with
        docs := s.docs.filter (fun d => d.id ≠ id)
        blobs :=
          if afterLastSlash doc.url.data ≠ [] ∧ env.removeFails = false
          then s.blobs.filter (fun p => p.1 ≠ String.mk (afterLastSlash doc.url.data))
          else s.blobs }) := by
  unfold deleteDocument
  rw [hdoc]
  simp only [hdb, Bool.false_eq_true, if_false, if_pos hurl, splitOnChar_getLast,
    afterLastSlash]
  by_cases hk : (doc.url.data.foldl (fun a x => if x = '/' then [] else a ++ [x]) []) = []
  · simp [hk]
  · by_cases hrem : env.removeFails = true
    · simp [hk, hrem]
    · simp [hk, hrem]

theorem delete_uses_url_tail_witness :
    deleteDocument envA 5 exState5 =
      (.ok, { exState5 with
        docs := exState5.docs.filter (fun d => d.id ≠ 5)
        blobs :=
          if afterLastSlash exDoc5.url.data ≠ [] ∧ envA.removeFails = false
          then exState5.blobs.filter
            (fun p => p.1 ≠ String.mk (afterLastSlash exDoc5.url.data))
          else exState5.blobs }) :=
  delete_uses_url_tail envA 5 exState5 exDoc5 (by decide) (by decide) rfl

lemma export_count (env : Env) (docs : List DocRecord)
    (h : ∀ d ∈ docs, d.url ≠ "") :
    (docs.filterMap (fun doc =>
        if doc.url ≠ "" then (env.fetch doc.url).map (fun bs => (doc, env.encode bs))
        else none)).length
      + (docs.filter (fun d => (env.fetch d.url).isNone)).length = docs.length := by
  induction docs with
  | nil => simp
  | cons d ds ih =>
    have hd : d.url ≠ "" := h d (List.mem_cons_self d ds)
    have ih' := ih (fun x hx => h x (List.mem_cons_of_mem d hx))
    simp only [List.filterMap_cons, List.filter_cons, List.length_cons]
    simp at ih'
    cases hf : env.fetch d.url with
    | none =>
      simp [hd, hf]
      omega
    | some bs =>
      simp [hd, hf]
      omega

lemma export_map_fst (env : Env) (docs : List DocRecord) :
    (docs.filterMap (fun doc =>
        if doc.url ≠ "" then (env.fetch doc.url).map (fun bs => (doc, env.encode bs))
        else none)).map Prod.fst
      = docs.filter (fun d => (!(d.url == "")) && (env.fetch d.url).isSome) := by
  induction docs with
  | nil => simp
  | cons d ds ih =>
    simp only [List.filterMap_cons, List.filter_cons]
    by_cases hd : d.url = ""
    · simp [hd]
      simpa using ih
    · cases hf : env.fetch d.url with
      | none =>
        simp [hd, hf]
        simpa using ih
      | some bs =>
        simp [hd, hf]
        simpa using ih

/-- C4: the batch export completes without raising whenever listing the
documents succeeds; a fetch is attempted exactly for documents with a
non-empty locator (every fetched locator is non-empty); the materialized
entries are exactly the documents whose locator is non-empty and whose fetch
succeeded, in particular when every stored document has a locator and
exactly one fetch fails the export returns N minus 1 entries. -/
theorem export_isolates_failures (env : Env) (s : StoreState)
    (hl : env.listFails = false) :
    (∀ u ∈ (getAllDocumentsWithData env s).fetched, u ≠ "")
    ∧ ∃ l, (getAllDocumentsWithData env s).result = .ok l
        ∧ l.map Prod.fst =
            s.docs.filter (fun d => (!(d.url == "")) && (env.fetch d.url).isSome)
        ∧ ((∀ d ∈ s.docs, d.url ≠ "") →
            (s.docs.filter (fun d => (env.fetch d.url).isNone)).length = 1 →
            l.length = s.docs.length - 1) := by
  unfold getAllDocumentsWithData
  simp only [hl, Bool.false_eq_true, if_false]
  constructor
  · intro u hu
    simp only [List.mem_filterMap] at hu
    obtain ⟨d, hd, hif⟩ := hu
    split at hif
    · rename_i hcond
      injection hif with h2
      subst h2
      exact hcond
    · simp at hif
  · refine ⟨_, rfl, export_map_fst env s.docs, ?_⟩
    intro hall hone
    have hc := export_count env s.docs hall
    omega

theorem export_isolates_failures_witness :
    (∀ u ∈ (getAllDocumentsWithData envFetchOne exStateExport).fetched, u ≠ "")
    ∧ ∃ l, (getAllDocumentsWithData envFetchOne exStateExport).result = .ok l
        ∧ l.map Prod.fst =
            exStateExport.docs.filter
              (fun d => (!(d.url == "")) && (envFetchOne.fetch d.url).isSome)
        ∧ ((∀ d ∈ exStateExport.docs, d.url ≠ "") →
            (exStateExport.docs.filter
              (fun d => (envFetchOne.fetch d.url).isNone)).length = 1 →
            l.length = exStateExport.docs.length - 1) :=
  export_isolates_failures envFetchOne exStateExport rfl

example : (getAllDocumentsWithData envFetchOne exStateExport).result =
    .ok [(exDocU1, "JVBE")] := rfl

example : (getAllDocumentsWithData envFetchOne exStateExport).fetched =
    ["https://blob.example/u1", "https://blob.example/u2"] := rfl
